import Mathlib

/-!
# Verification of the WebSocket protocol engine (deno std ws, as vendored by Web-Chat)

Shallow embedding of the frame codec, the connection/reassembly state machine
and the handshake accept computation from
`.deno/gen/https/deno.land/e78c060…f04d4.js` (deno std@0.75.0 `ws/mod.ts`),
together with theorems settling the specified properties.

Bytes are modelled as `Nat` (values < 256 on the wire); byte streams as
`List Nat`.  Fallible operations return `Option`/`Except`.
-/

-- Opcode constants, from the source's `OpCode` enum.
namespace OpCode

def Continue : Nat := 0x0
def TextFrame : Nat := 0x1
def BinaryFrame : Nat := 0x2
def Close : Nat := 0x8
def Ping : Nat := 0x9
def Pong : Nat := 0xa

end OpCode

/-- A websocket frame, from the source's `WebSocketFrame` shape:
`isLastFrame` (fin), 4-bit `opcode`, optional mask key bytes, payload bytes. -/
structure Frame where
  isLastFrame : Bool
  opcode : Nat
  mask : Option (List Nat)
  payload : List Nat
deriving DecidableEq

/-- One step of the source's `unmask` loop: `payload[i] ^= mask[i & 3]`,
carrying the running index `i`.  An out-of-range mask read is the JS
`undefined` coerced to `0` by `^`. -/
def unmaskFrom (i : Nat) (payload m : List Nat) : List Nat :=
  match payload with
  | [] => []
  | b :: rest => (b ^^^ m.getD (i &&& 3) 0) :: unmaskFrom (i + 1) rest m

/-- The source's `unmask(payload, mask)`: XOR the payload against the 4-byte
mask cycled by index; a missing mask leaves the payload unchanged. -/
def unmask (payload : List Nat) : Option (List Nat) → List Nat
  | none => payload
  | some m => unmaskFrom 0 payload m

/-- Modelled from the spec: the 8-byte big-endian length encoding produced by
the external `io/ioutil.ts` helper `sliceLongToBytes` (not vendored under
`src/`), "length follows as 8 bytes, big-endian". -/
def sliceLongToBytes (d : Nat) : List Nat :=
  [d >>> 56 &&& 255, d >>> 48 &&& 255, d >>> 40 &&& 255, d >>> 32 &&& 255,
   d >>> 24 &&& 255, d >>> 16 &&& 255, d >>> 8 &&& 255, d &&& 255]

/-- Modelled from the spec: the big-endian value of a byte run, as read by the
external `io/ioutil.ts` helpers `readShort` (2 bytes) and `readLong`
(8 bytes), both "big-endian" per the spec. -/
def beVal (bs : List Nat) : Nat :=
  bs.foldl (fun acc b => acc * 256 + b) 0

/-- Read exactly `n` bytes from the stream (the `readFull` pattern): fails when
the source is exhausted before `n` bytes are available. -/
def readBytes (n : Nat) (s : List Nat) : Option (List Nat × List Nat) :=
  if n ≤ s.length then some (s.take n, s.drop n) else none

/-- The source's `writeFrame` (lines 37–71), as the pure byte encoding of a
frame.  Byte 0 is `0x80 | opcode` (the source sets the fin bit
unconditionally); byte 1 is `hasMask | lengthIndicator` with the
`< 126` / `< 0xffff` / else branch structure of the source; a supplied mask
must be exactly 4 bytes; the payload is XOR-masked before being appended. -/
def writeFrame (frame : Frame) : Option (List Nat) :=
  let payloadLength := frame.payload.length
  let hasMask : Nat := if frame.mask.isSome then 0x80 else 0
  let maskOk : Bool :=
    match frame.mask with
    | some m => m.length == 4
    | none => true
  if maskOk = false then none
  else
    let header : List Nat :=
      if payloadLength < 126 then
        [0x80 ||| frame.opcode, hasMask ||| payloadLength]
      else if payloadLength < 0xffff then
        [0x80 ||| frame.opcode, hasMask ||| 0b01111110,
         payloadLength >>> 8, payloadLength &&& 0x00ff]
      else
        [0x80 ||| frame.opcode, hasMask ||| 0b01111111] ++
          sliceLongToBytes payloadLength
    let header2 := header ++ frame.mask.getD []
    some (header2 ++ unmask frame.payload frame.mask)

/-- The source's `readFrame` (lines 75–119): reads one frame from the byte
stream.  The fin nibble must be `0b1000` or `0b0000` ("invalid signature"
otherwise); any 4-bit opcode is accepted; length indicator 126/127 triggers a
2- or 8-byte big-endian extended length; a set mask bit reads a 4-byte mask; the
payload is returned still masked (the read loop unmasks it). -/
def readFrame (s : List Nat) : Option (Frame × List Nat) :=
  match s with
  | [] => none
  | b0 :: s1 =>
    let finOpt : Option Bool :=
      if b0 >>> 4 = 0b1000 then some true
      else if b0 >>> 4 = 0b0000 then some false
      else none
    match finOpt with
    | none => none
    | some isLastFrame =>
      let opcode := b0 &&& 0x0f
      match s1 with
      | [] => none
      | b1 :: s2 =>
        let hasMask := b1 >>> 7
        let pl7 := b1 &&& 0b01111111
        let lenRes : Option (Nat × List Nat) :=
          if pl7 = 126 then
            match readBytes 2 s2 with
            | some (bs, s3) => some (beVal bs, s3)
            | none => none
          else if pl7 = 127 then
            match readBytes 8 s2 with
            | some (bs, s3) => some (beVal bs, s3)
            | none => none
          else some (pl7, s2)
        match lenRes with
        | none => none
        | some (payloadLength, s3) =>
          let maskRes : Option (Option (List Nat) × List Nat) :=
            if hasMask ≠ 0 then
              match readBytes 4 s3 with
              | some (m, s4) => some (some m, s4)
              | none => none
            else some (none, s3)
          match maskRes with
          | none => none
          | some (mask, s4) =>
            match readBytes payloadLength s4 with
            | none => none
            | some (payload, s5) =>
              some ({ isLastFrame := isLastFrame, opcode := opcode,
                      mask := mask, payload := payload }, s5)

/-- Decoding as performed by the read loop (and described in §4.1 of the
spec): `readFrame` followed by unmasking the payload (source line 143). -/
def decode (s : List Nat) : Option (Frame × List Nat) :=
  match readFrame s with
  | some (f, rest) => some ({ f with payload := unmask f.payload f.mask }, rest)
  | none => none

/-! ## Connection state machine -/

inductive WsError where
  | connectionReset
deriving DecidableEq

-- Argument to `send`: a JS string (given by its UTF-8 bytes) or binary data.
inductive SendData where
  | str : List Nat → SendData
  | bin : List Nat → SendData
deriving DecidableEq

/-- State of the source's `WebSocketImpl`: the client-side mask, the pending
send queue, the frames whose write has completed (the wire, in write order),
and the `_isClosed` flag.  The transport handle itself is not modelled. -/
structure WebSocketImpl where
  mask : Option (List Nat) := none
  sendQueue : List Frame := []
  written : List Frame := []
  isClosed : Bool := false
deriving DecidableEq

/-- The source's `enqueue` (lines 211–224): throws `ConnectionReset` when the
socket is closed, otherwise appends the frame to the send queue (the returned
deferred completion is not awaited here). -/
def enqueue (ws : WebSocketImpl) (frame : Frame) :
    WebSocketImpl × Except WsError Unit :=
  if ws.isClosed then (ws, .error .connectionReset)
  else ({ ws with sendQueue := ws.sendQueue ++ [frame] }, .ok ())

/-- `await this.enqueue(frame)`: enqueue and then await the deferred, which
resolves once the drain loop has written the frame.  Sequentialized: the
entries already queued drain first (FIFO), then this frame, all moving to
`written`. -/
def awaitEnqueue (ws : WebSocketImpl) (frame : Frame) :
    WebSocketImpl × Except WsError Unit :=
  if ws.isClosed then (ws, .error .connectionReset)
  else
    ({ ws with
        written := ws.written ++ ws.sendQueue ++ [frame]
        sendQueue := [] }, .ok ())

/-- The source's `send` (lines 225–236): a single final Text or Binary frame,
masked with the connection's mask, handed to `enqueue`. -/
def send (ws : WebSocketImpl) (data : SendData) :
    WebSocketImpl × Except WsError Unit :=
  let opcode := match data with
    | .str _ => OpCode.TextFrame
    | .bin _ => OpCode.BinaryFrame
  let payload := match data with
    | .str bs => bs
    | .bin bs => bs
  enqueue ws ⟨true, opcode, ws.mask, payload⟩

/-- The source's `ping` (lines 237–246). -/
def ping (ws : WebSocketImpl) (data : List Nat) :
    WebSocketImpl × Except WsError Unit :=
  enqueue ws ⟨true, OpCode.Ping, ws.mask, data⟩

/-- The source's `ensureSocketClosed` (lines 281–293): a no-op when already
closed, otherwise closes the transport, sets `_isClosed`, and empties the send
queue, rejecting every not-yet-written entry. -/
def ensureSocketClosed (ws : WebSocketImpl) : WebSocketImpl :=
  if ws.isClosed then ws
  else { ws with isClosed := true, sendQueue := [] }

/-- The source's `close` (lines 251–277): builds the 2-byte big-endian code
plus optional reason payload (a falsy — absent or empty — reason contributes
nothing), awaits enqueueing a final Close frame, and in a `finally` block runs
`ensureSocketClosed`; an enqueue failure propagates. -/
def close (ws : WebSocketImpl) (code : Nat) (reason : Option (List Nat)) :
    WebSocketImpl × Except WsError Unit :=
  let header := [code >>> 8, code &&& 0x00ff]
  let payload : List Nat :=
    match reason with
    | some r => if r.isEmpty then header else header ++ r
    | none => header
  match awaitEnqueue ws ⟨true, OpCode.Close, ws.mask, payload⟩ with
  | (ws1, .ok _) => (ensureSocketClosed ws1, .ok ())
  | (ws1, .error e) => (ensureSocketClosed ws1, .error e)

/-! ## Inbound event loop -/

/-- An event yielded by the async iterator: a UTF-8 decoded text message (its
bytes), a binary message, a close event (code and UTF-8 reason bytes), or a
ping/pong carrying its payload. -/
inductive WsEvent where
  | text : List Nat → WsEvent
  | binary : List Nat → WsEvent
  | close : Nat → List Nat → WsEvent
  | ping : List Nat → WsEvent
  | pong : List Nat → WsEvent
deriving DecidableEq

/-- The iterator's reassembly accumulator: the local `frames` list and
`payloadsLength` counter (lines 133–134). -/
structure IterState where
  frames : List Frame := []
  payloadsLength : Nat := 0
deriving DecidableEq

/-- One iteration of the source's `[Symbol.asyncIterator]` body
(lines 143–198) on an already-read frame: unmask, then dispatch on the opcode.
Returns the connection state, the accumulator, the events yielded, and whether
the loop continues.  On a final data frame the assembled buffer has size
`payloadsLength`, which the loop keeps equal to the total fragment length, so
it is rendered as the concatenation of the accumulated payloads. -/
def handleFrame (ws : WebSocketImpl) (st : IterState) (frame0 : Frame) :
    WebSocketImpl × IterState × List WsEvent × Bool :=
  let frame : Frame := { frame0 with payload := unmask frame0.payload frame0.mask }
  if frame.opcode = OpCode.TextFrame ∨ frame.opcode = OpCode.BinaryFrame ∨
      frame.opcode = OpCode.Continue then
    let frames := st.frames ++ [frame]
    let payloadsLength := st.payloadsLength + frame.payload.length
    if frame.isLastFrame then
      let concatPayload := (frames.map Frame.payload).flatten
      let ev :=
        if (frames.headD ⟨true, 0, none, []⟩).opcode = OpCode.TextFrame then
          WsEvent.text concatPayload
        else
          WsEvent.binary concatPayload
      (ws, ⟨[], 0⟩, [ev], true)
    else
      (ws, ⟨frames, payloadsLength⟩, [], true)
  else if frame.opcode = OpCode.Close then
    let code := (frame.payload.getD 0 0) <<< 8 ||| frame.payload.getD 1 0
    let reason := frame.payload.drop 2
    match close ws code (some reason) with
    | (ws1, .ok _) => (ws1, st, [WsEvent.close code reason], false)
    | (ws1, .error _) => (ws1, st, [], false)
  else if frame.opcode = OpCode.Ping then
    match awaitEnqueue ws ⟨true, OpCode.Pong, none, frame.payload⟩ with
    | (ws1, .ok _) => (ws1, st, [WsEvent.ping frame.payload], true)
    | (ws1, .error _) => (ws1, st, [], false)
  else if frame.opcode = OpCode.Pong then
    (ws, st, [WsEvent.pong frame.payload], true)
  else
    (ws, st, [], true)

/-- The inbound loop over a sequence of received frames: checks `_isClosed`
before each frame, dispatches via `handleFrame`, stops on a non-continuing
outcome, and collects the yielded events in order. -/
def runLoop : WebSocketImpl → IterState → List Frame → WebSocketImpl × List WsEvent
  | ws, _, [] => (ws, [])
  | ws, st, f :: rest =>
    if ws.isClosed then (ws, [])
    else
      match handleFrame ws st f with
      | (ws1, st1, evs, cont) =>
        if cont then
          match runLoop ws1 st1 rest with
          | (ws2, evs2) => (ws2, evs ++ evs2)
        else (ws1, evs)

/-! ## Handshake -/

-- JS `Headers` lowercases keys; headers are an assoc list with lowercase keys.
def getHeader (headers : List (String × String)) (k : String) : Option String :=
  (headers.find? (fun p => p.fst == k)).map Prod.snd

-- JS `toLowerCase()`, as a character-wise map.
def toLowerStr (s : String) : String :=
  String.mk (s.data.map Char.toLower)

/-- The source's `acceptable` (lines 295–302): requires an `upgrade` header
that is truthy and case-insensitively equal to "websocket", and a present,
non-empty `sec-websocket-key` header. -/
def acceptable (headers : List (String × String)) : Bool :=
  match getHeader headers "upgrade" with
  | none => false
  | some upgrade =>
    if upgrade = "" then false
    else if toLowerStr upgrade ≠ "websocket" then false
    else
      match getHeader headers "sec-websocket-key" with
      | some secKey => 0 < secKey.length
      | none => false

def kGUID : String := "258EAFA5-E914-47DA-95CA-C5AB0DC85B11"

def base64Chars : List Char :=
  "ABCDEFGHIJKLMNOPQRSTUVWXYZabcdefghijklmnopqrstuvwxyz0123456789+/".toList

/-- Modelled from the spec: the JS builtin `btoa` (not part of the vendored
sources), producing the standard base64 rendering of a byte string —
"base64-encoded" accept token. -/
def btoa : List Nat → String
  | [] => ""
  | [a] =>
    String.mk [base64Chars.getD (a >>> 2) 'A',
               base64Chars.getD ((a &&& 3) <<< 4) 'A', '=', '=']
  | [a, b] =>
    String.mk [base64Chars.getD (a >>> 2) 'A',
               base64Chars.getD (((a &&& 3) <<< 4) ||| (b >>> 4)) 'A',
               base64Chars.getD ((b &&& 15) <<< 2) 'A', '=']
  | a :: b :: c :: rest =>
    String.mk [base64Chars.getD (a >>> 2) 'A',
               base64Chars.getD (((a &&& 3) <<< 4) ||| (b >>> 4)) 'A',
               base64Chars.getD (((b &&& 15) <<< 2) ||| (c >>> 6)) 'A',
               base64Chars.getD (c &&& 63) 'A'] ++ btoa rest

/-- The source's `createSecAccept` (lines 304–309):
`btoa(digest(nonce + kGUID))`.  The digest primitive (`hash/sha1.ts`, SHA-1)
is an external collaborator not vendored under `src/`; modelled from the spec
as an abstract digest parameter from byte strings to digest bytes. -/
def createSecAccept (digest : String → List Nat) (nonce : String) : String :=
  btoa (digest (nonce ++ kGUID))

/-- The source's `acceptWebSocket` (lines 310–334) on the request's header
map: when acceptable, computes the accept token and writes the 101 response
headers (returned here as the ok value); otherwise throws "request is not
acceptable" with nothing written. -/
def acceptWebSocket (digest : String → List Nat)
    (headers : List (String × String)) :
    Except String (List (String × String)) :=
  if acceptable headers then
    match getHeader headers "sec-websocket-key" with
    | none => .error "sec-websocket-key is not provided"
    | some secKey =>
      .ok [("Upgrade", "websocket"), ("Connection", "Upgrade"),
           ("Sec-WebSocket-Accept", createSecAccept digest secKey)]
  else .error "request is not acceptable"

/-- The client-side expected accept token computed by `handshake`
(line `const expectedSecAccept = createSecAccept(key)`). -/
def clientExpectedSecAccept (digest : String → List Nat) (key : String) :
    String :=
  createSecAccept digest key

/-! ## Helper lemmas -/

-- The spec's concrete scenarios, as sanity checks of the codec embedding.
lemma spec_scenario_decode_hello :
    decode [0x81, 0x05, 72, 101, 108, 108, 111] =
      some (⟨true, OpCode.TextFrame, none, [72, 101, 108, 108, 111]⟩, []) := by
  decide

lemma spec_scenario_encode_close :
    writeFrame ⟨true, OpCode.Close, none, [0x03, 0xE8, 98, 121, 101]⟩ =
      some [0x88, 0x05, 0x03, 0xE8, 98, 121, 101] := by
  decide

lemma unmaskFrom_length (i : Nat) (p m : List Nat) :
    (unmaskFrom i p m).length = p.length := by
  induction p generalizing i with
  | nil => rfl
  | cons b rest ih => simp [unmaskFrom, ih]

lemma unmask_length (p : List Nat) (mk : Option (List Nat)) :
    (unmask p mk).length = p.length := by
  cases mk with
  | none => rfl
  | some m => simp [unmask, unmaskFrom_length]

lemma unmaskFrom_unmaskFrom (i : Nat) (p m : List Nat) :
    unmaskFrom i (unmaskFrom i p m) m = p := by
  induction p generalizing i with
  | nil => rfl
  | cons b rest ih =>
    simp [unmaskFrom, ih, Nat.xor_assoc]

lemma unmask_unmask (p m : List Nat) :
    unmask (unmask p (some m)) (some m) = p := by
  simp [unmask, unmaskFrom_unmaskFrom]

lemma readBytes_append (n : Nat) (p r : List Nat) (h : p.length = n) :
    readBytes n (p ++ r) = some (p, r) := by
  subst h
  simp [readBytes, List.take_append, List.drop_append]

/-! ## C2: byte 0 of an encoded frame -/

/-- C2 (amended): for every frame accepted by `writeFrame`, byte 0 of the
encoded output is `0x80 ||| opcode` — the fin bit is set unconditionally,
regardless of the frame's `isLastFrame` flag. -/
theorem writeFrame_byte0 (f : Frame) (bs : List Nat)
    (h : writeFrame f = some bs) :
    bs.getD 0 0 = 0x80 ||| f.opcode := by
  obtain ⟨fin, op, mk, p⟩ := f
  unfold writeFrame at h
  cases mk with
  | none =>
    simp only [Option.isSome_none, Bool.false_eq_true, if_false,
      Option.getD_none] at h
    norm_num at h
    split at h
    · subst h; rfl
    · split at h <;> (subst h; rfl)
  | some m =>
    simp only [Option.isSome_some, if_true, Option.getD_some, beq_iff_eq] at h
    by_cases hm : m.length = 4
    · simp only [hm] at h
      norm_num at h
      split at h
      · subst h; rfl
      · split at h <;> (subst h; rfl)
    · simp [hm] at h

/-- C2 witness: `writeFrame` on a concrete final text frame. -/
theorem writeFrame_byte0_witness :
    writeFrame ⟨true, 1, none, [104]⟩ = some [0x81, 1, 104] ∧
    ([0x81, 1, 104] : List Nat).getD 0 0 = 0x80 ||| 1 :=
  ⟨by decide, writeFrame_byte0 ⟨true, 1, none, [104]⟩ [0x81, 1, 104] (by decide)⟩

/-- C2 counterexample: for a non-final text frame, byte 0 is `0x81`, not
`fin<<7 ||| opcode = 0x01` as the claim states. -/
theorem writeFrame_byte0_cex :
    writeFrame ⟨false, 1, none, []⟩ = some [0x81, 0] ∧
    ([0x81, 0] : List Nat).getD 0 0 ≠
      (if (⟨false, 1, none, []⟩ : Frame).isLastFrame then 1 else 0) <<< 7 ||| 1 := by
  decide

/-! ## C3: the length field -/

/-- C3 (amended): for every frame accepted by `writeFrame` with payload length
`L`, byte 1's length field is `L` itself when `L < 126`; it is the indicator
`126` followed by the 2-byte big-endian length for `126 ≤ L ≤ 65534`; and it
is the indicator `127` followed by the 8-byte big-endian length for
`L ≥ 65535` (not `L ≥ 65536`: the source's second branch tests
`payloadLength < 0xffff`, so `L = 65535` already uses the 8-byte form). -/
theorem writeFrame_length_field (f : Frame) (bs : List Nat)
    (h : writeFrame f = some bs) :
    (f.payload.length < 126 →
      bs.getD 1 0 = (if f.mask.isSome then 0x80 else 0) ||| f.payload.length) ∧
    (126 ≤ f.payload.length → f.payload.length < 65535 →
      bs.getD 1 0 = (if f.mask.isSome then 0x80 else 0) ||| 126 ∧
      (bs.drop 2).take 2 = [f.payload.length >>> 8, f.payload.length &&& 0xff]) ∧
    (65535 ≤ f.payload.length →
      bs.getD 1 0 = (if f.mask.isSome then 0x80 else 0) ||| 127 ∧
      (bs.drop 2).take 8 = sliceLongToBytes f.payload.length) := by
  obtain ⟨fin, op, mk, p⟩ := f
  dsimp only
  unfold writeFrame at h
  cases mk with
  | none =>
    simp only [Option.isSome_none, Bool.false_eq_true, if_false,
      Option.getD_none] at h
    norm_num at h
    split at h
    · subst h
      refine ⟨fun _ => by simp, fun h126 _ => ?_, fun h65535 => ?_⟩ <;>
        (exfalso; omega)
    · split at h <;> subst h
      · refine ⟨fun hlt => ?_, fun _ _ => ⟨by simp, by simp⟩,
          fun h65535 => ?_⟩ <;> (exfalso; omega)
      · refine ⟨fun hlt => ?_, fun _ hlt2 => ?_,
          fun _ => ⟨by simp, by simp [sliceLongToBytes]⟩⟩ <;> (exfalso; omega)
  | some m =>
    simp only [Option.isSome_some, if_true, Option.getD_some, beq_iff_eq] at h
    by_cases hm : m.length = 4
    · simp only [hm] at h
      norm_num at h
      split at h
      · subst h
        refine ⟨fun _ => by simp, fun h126 _ => ?_, fun h65535 => ?_⟩ <;>
          (exfalso; omega)
      · split at h <;> subst h
        · refine ⟨fun hlt => ?_, fun _ _ => ⟨by simp, by simp⟩,
            fun h65535 => ?_⟩ <;> (exfalso; omega)
        · refine ⟨fun hlt => ?_, fun _ hlt2 => ?_,
            fun _ => ⟨by simp, by simp [sliceLongToBytes]⟩⟩ <;> (exfalso; omega)
    · simp [hm] at h

/-- C3 witness: a 1-byte payload uses the 7-bit length form. -/
theorem writeFrame_length_field_witness :
    ([0x81, 1, 7] : List Nat).getD 1 0 =
      (if (⟨true, 1, none, [7]⟩ : Frame).mask.isSome then 0x80 else 0) |||
        (⟨true, 1, none, [7]⟩ : Frame).payload.length :=
  (writeFrame_length_field ⟨true, 1, none, [7]⟩ [0x81, 1, 7] (by decide)).1
    (by decide)

/-- C3 counterexample: a payload of length 65535 is encoded with length
indicator 127 (the 8-byte form), not 126 as the claim states. -/
theorem writeFrame_length_65535_cex :
    ((writeFrame ⟨true, 2, none, List.replicate 65535 0⟩).getD []).getD 1 0 = 127 ∧
    (127 : Nat) ≠ 126 := by
  have h1 : writeFrame ⟨true, 2, none, List.replicate 65535 0⟩ =
      some (([0x80 ||| 2, 0 ||| 127] ++ sliceLongToBytes 65535) ++
        ([] ++ unmask (List.replicate 65535 0) none)) := by
    unfold writeFrame
    rw [List.length_replicate]
    norm_num
  rw [h1]
  exact ⟨rfl, by decide⟩

/-! ## C4: operations after close -/

/-- C4 (amended): after `close()` completes on an open connection, any
subsequent `send`, `ping` or `enqueue` fails with `ConnectionReset`; a second
`close()` writes no second Close frame and leaves the state unchanged, but it
is not a silent no-op: it raises `ConnectionReset` (its `enqueue` throws on
the closed socket). -/
theorem close_lifecycle (ws : WebSocketImpl) (h : ws.isClosed = false) :
    (close ws 1000 none).2 = .ok () ∧
    (close ws 1000 none).1.isClosed = true ∧
    (∀ d, send (close ws 1000 none).1 d =
      ((close ws 1000 none).1, .error .connectionReset)) ∧
    (∀ p, ping (close ws 1000 none).1 p =
      ((close ws 1000 none).1, .error .connectionReset)) ∧
    (∀ fr, enqueue (close ws 1000 none).1 fr =
      ((close ws 1000 none).1, .error .connectionReset)) ∧
    (∀ code reason, close (close ws 1000 none).1 code reason =
      ((close ws 1000 none).1, .error .connectionReset)) := by
  simp [close, awaitEnqueue, ensureSocketClosed, enqueue, send, ping, h]

/-- C4 witness: the lifecycle theorem at a fresh open connection. -/
theorem close_lifecycle_witness :
    (close ⟨none, [], [], false⟩ 1000 none).2 = .ok () ∧
    close (close ⟨none, [], [], false⟩ 1000 none).1 1000 none =
      ((close ⟨none, [], [], false⟩ 1000 none).1, .error .connectionReset) :=
  ⟨(close_lifecycle ⟨none, [], [], false⟩ rfl).1,
   (close_lifecycle ⟨none, [], [], false⟩ rfl).2.2.2.2.2 1000 none⟩

/-- C4 counterexample: calling `close()` a second time is not exception-free —
it returns the `ConnectionReset` error. -/
theorem close_idempotent_cex :
    (close (close ⟨none, [], [], false⟩ 1000 none).1 1000 none).2 =
      Except.error WsError.connectionReset := by
  rfl

/-! ## C5: Close frame payload parsing -/

lemma shiftLeft8_lor (b0 b1 : Nat) (h : b1 < 256) :
    b0 <<< 8 ||| b1 = 256 * b0 + b1 := by
  rw [Nat.shiftLeft_eq, Nat.mul_comm]
  rw [← Nat.mul_add_lt_is_or (show b1 < 2 ^ 8 by norm_num; exact h)]

/-- C5 (amended): the Close branch parses the first 2 payload bytes as a
big-endian status code and the remaining bytes as the UTF-8 reason; an empty
payload yields a close event carrying status code `0` and an empty reason
(the JS out-of-bounds reads coerce to `0`), not an event without a code. -/
theorem close_frame_parsing (ws : WebSocketImpl) (st : IterState) (fin : Bool)
    (b0 b1 : Nat) (rest : List Nat) (hb1 : b1 < 256)
    (hopen : ws.isClosed = false) :
    (handleFrame ws st ⟨fin, OpCode.Close, none, b0 :: b1 :: rest⟩).2.2.1 =
      [WsEvent.close (256 * b0 + b1) rest] ∧
    (handleFrame ws st ⟨fin, OpCode.Close, none, []⟩).2.2.1 =
      [WsEvent.close 0 []] := by
  constructor
  · simp [handleFrame, OpCode.Close, OpCode.TextFrame, OpCode.BinaryFrame,
      OpCode.Continue, unmask, close, awaitEnqueue, ensureSocketClosed, hopen,
      shiftLeft8_lor b0 b1 hb1]
  · simp [handleFrame, OpCode.Close, OpCode.TextFrame, OpCode.BinaryFrame,
      OpCode.Continue, unmask, close, awaitEnqueue, ensureSocketClosed, hopen]

/-- C5 witness: close frame with payload code 1000 and reason "b". -/
theorem close_frame_parsing_witness :
    (handleFrame ⟨none, [], [], false⟩ ⟨[], 0⟩
        ⟨true, OpCode.Close, none, [3, 232, 98]⟩).2.2.1 =
      [WsEvent.close (256 * 3 + 232) [98]] :=
  (close_frame_parsing ⟨none, [], [], false⟩ ⟨[], 0⟩ true 3 232 [98]
    (by decide) rfl).1

/-- C5 counterexample: an empty-payload Close frame yields an event carrying
the concrete status code `0` and empty reason — the event does not omit the
code as the claim states. -/
theorem close_frame_empty_cex :
    (handleFrame ⟨none, [], [], false⟩ ⟨[], 0⟩
        ⟨true, OpCode.Close, none, []⟩).2.2.1 = [WsEvent.close 0 []] := by
  rfl

/-! ## C6: frames received mid-message -/

/-- C6 (amended): the read loop does not enforce the continuation invariant.
A non-final Text, Binary or Continuation frame received at any point — in
particular a Text/Binary frame received mid-message — is appended to the
pending fragment list exactly like a Continuation frame, with no protocol
failure; the message kind is still decided by the first accumulated frame's
opcode. -/
theorem midframe_accumulated (ws : WebSocketImpl) (st : IterState)
    (op : Nat) (p : List Nat)
    (hop : op = OpCode.TextFrame ∨ op = OpCode.BinaryFrame ∨
      op = OpCode.Continue) :
    handleFrame ws st ⟨false, op, none, p⟩ =
      (ws, ⟨st.frames ++ [⟨false, op, none, p⟩], st.payloadsLength + p.length⟩,
        [], true) := by
  rcases hop with h | h | h <;> subst h <;>
    simp [handleFrame, OpCode.TextFrame, OpCode.BinaryFrame, OpCode.Continue,
      unmask]

/-- C6 witness: a Text frame arriving while a fragment is already pending is
accumulated, not rejected. -/
theorem midframe_accumulated_witness :
    handleFrame ⟨none, [], [], false⟩ ⟨[⟨false, 1, none, [97]⟩], 1⟩
        ⟨false, 1, none, [98]⟩ =
      (⟨none, [], [], false⟩,
        ⟨[⟨false, 1, none, [97]⟩, ⟨false, 1, none, [98]⟩], 2⟩, [], true) :=
  midframe_accumulated ⟨none, [], [], false⟩ ⟨[⟨false, 1, none, [97]⟩], 1⟩
    1 [98] (Or.inl rfl)

/-- C6 counterexample: a mid-message Text frame (not a Continuation) is
accumulated and completes the message "ab" with no protocol failure, against
the claim that it is treated as a malformed stream. -/
theorem midframe_text_cex :
    runLoop ⟨none, [], [], false⟩ ⟨[], 0⟩
        [⟨false, OpCode.TextFrame, none, [97]⟩,
         ⟨true, OpCode.TextFrame, none, [98]⟩] =
      (⟨none, [], [], false⟩, [WsEvent.text [97, 98]]) := by
  rfl

/-! ## C9: Ping handling -/

/-- C9 (confirmed): receiving a Ping frame carrying payload `P` on an open
connection appends exactly one Pong frame with payload `P` to the outbound
stream (after the entries already queued) and yields exactly one inbound
"ping" event carrying `P`, and the loop continues. -/
theorem ping_pong (ws : WebSocketImpl) (st : IterState) (fin : Bool)
    (P : List Nat) (hopen : ws.isClosed = false) :
    handleFrame ws st ⟨fin, OpCode.Ping, none, P⟩ =
      ({ ws with
          written := ws.written ++ ws.sendQueue ++ [⟨true, OpCode.Pong, none, P⟩]
          sendQueue := [] }, st, [WsEvent.ping P], true) := by
  simp [handleFrame, OpCode.Ping, OpCode.Pong, OpCode.TextFrame,
    OpCode.BinaryFrame, OpCode.Continue, OpCode.Close, unmask, awaitEnqueue,
    hopen]

/-- C9 witness: ping with payload [1, 2] on a fresh open connection. -/
theorem ping_pong_witness :
    handleFrame ⟨none, [], [], false⟩ ⟨[], 0⟩ ⟨true, OpCode.Ping, none, [1, 2]⟩ =
      (⟨none, [], [⟨true, OpCode.Pong, none, [1, 2]⟩], false⟩, ⟨[], 0⟩,
        [WsEvent.ping [1, 2]], true) :=
  ping_pong ⟨none, [], [], false⟩ ⟨[], 0⟩ true [1, 2] rfl

/-! ## C10: unknown opcodes -/

/-- C10 (confirmed): `readFrame` accepts every 4-bit opcode without
validation, and a received frame whose opcode is outside the six defined
opcodes falls into the switch's empty default case: no event, no error, the
reassembly state unchanged, and the loop continues with the next frame. -/
theorem unknown_opcode :
    (∀ op, op < 16 →
      readFrame [0x80 ||| op, 0] = some (⟨true, op, none, []⟩, [])) ∧
    (∀ (ws : WebSocketImpl) (st : IterState) (f : Frame),
      f.opcode ∉ ([OpCode.Continue, OpCode.TextFrame, OpCode.BinaryFrame,
        OpCode.Close, OpCode.Ping, OpCode.Pong] : List Nat) →
      handleFrame ws st f = (ws, st, [], true)) := by
  constructor
  · decide
  · intro ws st f hop
    simp only [OpCode.Continue, OpCode.TextFrame, OpCode.BinaryFrame,
      OpCode.Close, OpCode.Ping, OpCode.Pong, List.mem_cons,
      List.not_mem_nil, or_false, not_or] at hop
    obtain ⟨h0, h1, h2, h8, h9, h10⟩ := hop
    simp [handleFrame, OpCode.Continue, OpCode.TextFrame, OpCode.BinaryFrame,
      OpCode.Close, OpCode.Ping, OpCode.Pong, h0, h1, h2, h8, h9, h10]

/-- C10 witness: reserved opcode 3 decodes fine and is silently skipped. -/
theorem unknown_opcode_witness :
    readFrame [0x80 ||| 3, 0] = some (⟨true, 3, none, []⟩, []) ∧
    handleFrame ⟨none, [], [], false⟩ ⟨[], 0⟩ ⟨true, 3, none, [5]⟩ =
      (⟨none, [], [], false⟩, ⟨[], 0⟩, [], true) :=
  ⟨unknown_opcode.1 3 (by decide),
   unknown_opcode.2 ⟨none, [], [], false⟩ ⟨[], 0⟩ ⟨true, 3, none, [5]⟩
     (by decide)⟩

/-! ## C7: fragmented message reassembly -/

lemma runLoop_continues (ws : WebSocketImpl) (hopen : ws.isClosed = false)
    (mids : List (List Nat)) (last : List Nat) (f0 : Frame) (acc0 : List Frame)
    (plen : Nat) :
    runLoop ws ⟨f0 :: acc0, plen⟩
        (mids.map (fun p => ⟨false, OpCode.Continue, none, p⟩) ++
          [⟨true, OpCode.Continue, none, last⟩]) =
      (ws, [if f0.opcode = OpCode.TextFrame then
              WsEvent.text (((f0 :: acc0).map Frame.payload).flatten ++
                mids.flatten ++ last)
            else
              WsEvent.binary (((f0 :: acc0).map Frame.payload).flatten ++
                mids.flatten ++ last)]) := by
  induction mids generalizing acc0 plen with
  | nil =>
    simp [runLoop, handleFrame, OpCode.Continue, OpCode.TextFrame,
      OpCode.BinaryFrame, unmask, hopen, List.map_append, List.flatten_append]
  | cons m ms ih =>
    simp only [List.map_cons, List.cons_append, runLoop, hopen,
      Bool.false_eq_true, if_false]
    rw [show handleFrame ws ⟨f0 :: acc0, plen⟩ ⟨false, OpCode.Continue, none, m⟩ =
        (ws, ⟨(f0 :: acc0) ++ [⟨false, OpCode.Continue, none, m⟩],
          plen + m.length⟩, [], true) from by
      simp [handleFrame, OpCode.Continue, OpCode.TextFrame, OpCode.BinaryFrame,
        unmask]]
    dsimp only
    simp only [eq_self_iff_true, if_true, List.append_eq, List.cons_append]
    rw [ih]
    simp [List.map_append, List.flatten_append, List.append_assoc]

/-- C7 (confirmed): a message split into a first Text/Binary fragment
(fin=false), middle Continuation fragments (fin=false) and a final
Continuation fragment (fin=true) is reassembled by the inbound loop into
exactly one message event whose content is the concatenation of the fragment
payloads in receipt order, emitted as a text event exactly when the first
fragment's opcode was Text and as a binary event otherwise. -/
theorem reassembly (ws : WebSocketImpl) (op : Nat) (first last : List Nat)
    (mids : List (List Nat))
    (hop : op = OpCode.TextFrame ∨ op = OpCode.BinaryFrame)
    (hopen : ws.isClosed = false) :
    runLoop ws ⟨[], 0⟩
        (⟨false, op, none, first⟩ ::
          (mids.map (fun p => ⟨false, OpCode.Continue, none, p⟩) ++
            [⟨true, OpCode.Continue, none, last⟩])) =
      (ws, [if op = OpCode.TextFrame then
              WsEvent.text (first ++ mids.flatten ++ last)
            else WsEvent.binary (first ++ mids.flatten ++ last)]) := by
  have hstep : handleFrame ws ⟨[], 0⟩ ⟨false, op, none, first⟩ =
      (ws, ⟨[⟨false, op, none, first⟩], first.length⟩, [], true) := by
    rcases hop with h | h <;> subst h <;>
      simp [handleFrame, OpCode.TextFrame, OpCode.BinaryFrame, OpCode.Continue,
        unmask]
  simp only [runLoop, hopen, Bool.false_eq_true, if_false, hstep]
  rw [runLoop_continues ws hopen mids last ⟨false, op, none, first⟩ [] first.length]
  simp

/-- C7 witness: a three-fragment text message "abc". -/
theorem reassembly_witness :
    runLoop ⟨none, [], [], false⟩ ⟨[], 0⟩
        [⟨false, 1, none, [97]⟩, ⟨false, 0, none, [98]⟩,
         ⟨true, 0, none, [99]⟩] =
      (⟨none, [], [], false⟩,
        [if (1 : Nat) = OpCode.TextFrame then
           WsEvent.text ([97] ++ ([[98]] : List (List Nat)).flatten ++ [99])
         else WsEvent.binary ([97] ++ ([[98]] : List (List Nat)).flatten ++ [99])]) :=
  reassembly ⟨none, [], [], false⟩ 1 [97] [99] [[98]] (Or.inl rfl) rfl

/-! ## C8: handshake accept token and rejection -/

/-- C8 (confirmed): for a client key `K`, the server-side accept token written
by `acceptWebSocket` and the client-side expected token computed by
`handshake` are both `btoa(digest(K ++ kGUID))` — byte-identical — where
`digest` is the SHA-1 collaborator; and a request whose headers lack an
`Upgrade: websocket` header or a non-empty `sec-websocket-key` is rejected
with the "request is not acceptable" error, producing no response. -/
theorem handshake_accept (digest : String → List Nat)
    (hs : List (String × String)) (K u : String)
    (hu : getHeader hs "upgrade" = some u) (hul : toLowerStr u = "websocket")
    (hk : getHeader hs "sec-websocket-key" = some K) (hK : 0 < K.length) :
    acceptWebSocket digest hs =
      .ok [("Upgrade", "websocket"), ("Connection", "Upgrade"),
           ("Sec-WebSocket-Accept", btoa (digest (K ++ kGUID)))] ∧
    clientExpectedSecAccept digest K = btoa (digest (K ++ kGUID)) ∧
    (∀ hs2 : List (String × String),
      ((¬ ∃ u2, getHeader hs2 "upgrade" = some u2 ∧ toLowerStr u2 = "websocket") ∨
       (¬ ∃ K2, getHeader hs2 "sec-websocket-key" = some K2 ∧ 0 < K2.length)) →
      acceptWebSocket digest hs2 = .error "request is not acceptable") := by
  have hne : u ≠ "" := by
    intro h
    subst h
    exact absurd hul (by decide)
  refine ⟨?_, rfl, ?_⟩
  · have hacc : acceptable hs = true := by
      simp [acceptable, hu, hk, hul, hK, hne]
    simp [acceptWebSocket, hacc, hk, createSecAccept]
  · intro hs2 hbad
    have hfalse : acceptable hs2 = false := by
      rcases hbad with hbu | hbk
      · push_neg at hbu
        cases hu2 : getHeader hs2 "upgrade" with
        | none => simp [acceptable, hu2]
        | some u2 =>
          have hne2 := hbu u2 hu2
          by_cases hu2e : u2 = "" <;> simp [acceptable, hu2, hu2e, hne2]
      · push_neg at hbk
        cases hu2 : getHeader hs2 "upgrade" with
        | none => simp [acceptable, hu2]
        | some u2 =>
          cases hk2 : getHeader hs2 "sec-websocket-key" with
          | none =>
            simp only [acceptable, hu2, hk2]
            split_ifs <;> rfl
          | some K2 =>
            have hz := hbk K2 hk2
            simp only [acceptable, hu2, hk2]
            split_ifs <;> simp [hz]
    simp [acceptWebSocket, hfalse]

/-- C8 witness: a concrete digest and request headers; the acceptable request
is answered with the token, the empty header set is rejected. -/
theorem handshake_accept_witness :
    acceptWebSocket (fun _ => [1, 2, 3])
        [("upgrade", "websocket"), ("sec-websocket-key", "abc")] =
      .ok [("Upgrade", "websocket"), ("Connection", "Upgrade"),
           ("Sec-WebSocket-Accept", btoa [1, 2, 3])] ∧
    acceptWebSocket (fun _ => [1, 2, 3]) [] =
      .error "request is not acceptable" :=
  ⟨(handshake_accept (fun _ => [1, 2, 3])
      [("upgrade", "websocket"), ("sec-websocket-key", "abc")] "abc" "websocket"
      rfl (by decide) rfl (by decide)).1,
   (handshake_accept (fun _ => [1, 2, 3])
      [("upgrade", "websocket"), ("sec-websocket-key", "abc")] "abc" "websocket"
      rfl (by decide) rfl (by decide)).2.2 []
      (Or.inl (by rintro ⟨u2, h, -⟩; exact Option.noConfusion h))⟩

/-! ## C1: decode ∘ encode roundtrip -/

lemma unmask_none (p : List Nat) : unmask p none = p := rfl

lemma unmask_nil (mk : Option (List Nat)) : unmask [] mk = [] := by
  cases mk <;> rfl

lemma readBytes_exact (n : Nat) (s : List Nat) (h : s.length = n) :
    readBytes n s = some (s, []) := by
  subst h
  simp [readBytes]

lemma readBytes_two (a b : Nat) (r : List Nat) :
    readBytes 2 (a :: b :: r) = some ([a, b], r) := by
  simp [readBytes]

lemma readBytes_eight (a b c d e f g h : Nat) (r : List Nat) :
    readBytes 8 (a :: b :: c :: d :: e :: f :: g :: h :: r) =
      some ([a, b, c, d, e, f, g, h], r) := by
  simp [readBytes]

/-- C1 counterexample: the roundtrip fails for a frame with `fin = false`:
`writeFrame` sets the fin bit unconditionally, so the decoded frame comes back
with `isLastFrame = true`. -/
theorem decode_writeFrame_fin_cex :
    writeFrame ⟨false, 1, none, []⟩ = some [0x81, 0] ∧
    decode [0x81, 0] = some (⟨true, 1, none, []⟩, []) ∧
    (⟨true, 1, none, []⟩ : Frame) ≠ ⟨false, 1, none, []⟩ := by
  decide

/-- C1 (amended): for every final (`fin = true`) frame with one of the six
defined opcodes, an absent or 4-byte mask, and payload length in
{0, 1, 125, 126, 65535, 65536}, decoding the bytes produced by encoding the
frame yields the frame back exactly, consuming the whole stream.  (For
`fin = false` frames the roundtrip fails — see the counterexample — since the
encoder sets the fin bit unconditionally.) -/
theorem decode_writeFrame (f : Frame) (bs : List Nat)
    (hfin : f.isLastFrame = true)
    (hop : f.opcode ∈ ([OpCode.Continue, OpCode.TextFrame, OpCode.BinaryFrame,
      OpCode.Close, OpCode.Ping, OpCode.Pong] : List Nat))
    (hlen : f.payload.length ∈ ([0, 1, 125, 126, 65535, 65536] : List Nat))
    (h : writeFrame f = some bs) :
    decode bs = some (f, []) := by
  obtain ⟨fin, op, mk, p⟩ := f
  simp only at hfin
  subst hfin
  simp only [OpCode.Continue, OpCode.TextFrame, OpCode.BinaryFrame,
    OpCode.Close, OpCode.Ping, OpCode.Pong, List.mem_cons,
    List.not_mem_nil, or_false] at hop hlen
  cases mk with
  | none =>
    unfold writeFrame at h
    simp only [Option.isSome_none, Bool.false_eq_true, if_false,
      Option.getD_none] at h
    norm_num at h
    rcases hop with h1|h1|h1|h1|h1|h1 <;> subst h1 <;>
      rcases hlen with hL|hL|hL|hL|hL|hL <;>
      (rw [hL] at h
       norm_num at h
       subst h
       simp +decide [decode, readFrame, beVal, sliceLongToBytes, unmask_none,
         hL, unmask_length, readBytes_two, readBytes_eight, readBytes_exact])
  | some m =>
    unfold writeFrame at h
    simp only [Option.isSome_some, if_true, Option.getD_some, beq_iff_eq] at h
    by_cases hm4 : m.length = 4
    · simp only [hm4] at h
      norm_num at h
      rcases hop with h1|h1|h1|h1|h1|h1 <;> subst h1 <;>
        rcases hlen with hL|hL|hL|hL|hL|hL <;>
        (first
          | (rw [List.length_eq_zero] at hL
             subst hL
             norm_num at h
             subst h
             simp +decide [decode, readFrame, beVal, unmask_nil, hm4,
               readBytes_exact])
          | (rw [hL] at h
             norm_num at h
             subst h
             simp +decide [decode, readFrame, beVal, sliceLongToBytes,
               unmask_none, unmask_unmask, hL, hm4, unmask_length,
               readBytes_two, readBytes_eight, readBytes_append,
               readBytes_exact]))
    · simp [hm4] at h

/-- C1 witness: the roundtrip at a concrete final 1-byte text frame. -/
theorem decode_writeFrame_witness :
    decode [0x81, 1, 104] = some (⟨true, 1, none, [104]⟩, []) :=
  decode_writeFrame ⟨true, 1, none, [104]⟩ [0x81, 1, 104] rfl (by decide)
    (by decide) (by decide)
